import Mathlib

/-
  Verification of the vegafusion pre-transformer core.

  This file shallowly embeds the parts of the repository needed to settle the
  frozen claims: the Spark SQL transpiler rewrites of
  `vegafusion-runtime/src/sql/spark.rs`, the transform pipeline runner of
  `vegafusion-runtime/src/transform/pipeline.rs`, the signal- and value-task
  handlers of `vegafusion-runtime/src/signal/mod.rs` and
  `vegafusion-runtime/src/task_graph/task.rs`, and the aggregate extractor of
  `vegafusion-runtime/src/data/util.rs`.  External library behaviour that the
  repository only calls (the DataFusion unparser and sqlparser pretty printer,
  schema lookup, proto conversions) is modelled from the specification and is
  marked as such.
-/

set_option maxHeartbeats 1000000
set_option maxRecDepth 8000

namespace VegaFusion

/-! ### Spark SQL abstract syntax (sqlparser `ast`)

The fragment of the sqlparser expression AST that `spark.rs` constructs or
inspects.  `ast::ValueWithSpan` carries a source span, modelled as a `Nat`
token.  Constant fields that the source always sets to `None` or `[]`
(`filter`, `null_treatment`, `within_group`, `parameters`,
`duplicate_treatment`, `clauses`, `with_fill`) are omitted. -/

/-- A SQL literal value (`ast::Value`), restricted to the variants that the
rewrites of `spark.rs` construct or inspect. -/
inductive SqlValue where
| number (s : String) (long : Bool)
| singleQuotedString (s : String)
deriving DecidableEq

/-- A window frame (`ast::WindowFrame`).  `spark.rs` never inspects the frame
contents, it only clears the field, so a single representative constructor
suffices for the frame DataFusion emits for `row_number`. -/
inductive WindowFrame where
| rowsBetweenUnboundedPrecedingAndFollowing
deriving DecidableEq

mutual

/-- A SQL expression (`ast::Expr`), restricted to the constructors reachable in
the transpiled statements: literal values with spans, identifiers, compound
identifiers, binary operations, wildcards, and function calls with an optional
window clause. -/
inductive SqlExpr where
| value (v : SqlValue) (span : Nat)
| ident (name : String)
| compoundIdent (names : List String)
| binaryOp (left : SqlExpr) (op : String) (right : SqlExpr)
| wildcard
| function (name : List String) (args : SqlArgList) (over : OverClause)

/-- A list of SQL expressions (function arguments / partition-by lists), kept
inside the mutual family so that structural recursion over the family works. -/
inductive SqlArgList where
| nil
| cons (head : SqlExpr) (tail : SqlArgList)

/-- The `over` field of a function call: `Option<ast::WindowType>` with the
`WindowSpec` and `NamedWindow` variants. -/
inductive OverClause where
| noOver
| windowSpec (partitionBy : SqlArgList) (orderBy : OrderByList) (windowFrame : Option WindowFrame)
| namedWindow (name : String)

/-- A list of `ast::OrderByExpr`. -/
inductive OrderByList where
| nil
| cons (head : OrderByExpr) (tail : OrderByList)

/-- An `ast::OrderByExpr`: an expression with optional `asc` and
`nulls_first` options (`ast::OrderByOptions`). -/
inductive OrderByExpr where
| mk (expr : SqlExpr) (asc : Option Bool) (nullsFirst : Option Bool)

end

/-- Character-wise lowercase (Rust `str::to_lowercase`, which for the ASCII
function names and literal strings in scope lowercases each character). -/
def strToLower (s : String) : String := ⟨s.data.map Char.toLower⟩

/-- The list of lowercased literal strings treated as non-finite numbers by
`rewrite_inf_and_nan` (`SPECIAL_VALUES` in `spark.rs`). -/
def SPECIAL_VALUES : List String :=
  ["nan", "inf", "infinity", "+inf", "+infinity", "-inf", "-infinity"]

/-- The single-element ORDER BY list installed by `rewrite_row_number`:
`ORDER BY monotonically_increasing_id()` with no asc and no nulls option. -/
def monotonicOrderBy : OrderByList :=
  .cons (.mk (.ident "monotonically_increasing_id()") none none) .nil

mutual

/-- `rewrite_row_number` from `spark.rs`, at the expression level.  The Rust
code is a `visit_expressions_mut` pre-order visitor: the closure mutates the
node (for a function named `row_number` (case-insensitive) with a
`WindowSpec` over-clause it clears `window_frame` and replaces `order_by` by
`monotonicOrderBy`), and the traversal then descends into the children of the
mutated node.  The embedding fuses closure and traversal; descending into the
freshly installed `monotonicOrderBy` leaves it unchanged (its only expression
is an identifier, which the closure fixes), so it is written directly. -/
def rewriteRowNumber : SqlExpr → SqlExpr
| .value v sp => .value v sp
| .ident n => .ident n
| .compoundIdent ns => .compoundIdent ns
| .binaryOp l op r => .binaryOp (rewriteRowNumber l) op (rewriteRowNumber r)
| .wildcard => .wildcard
| .function name args over =>
    let overOut :=
      match over with
      | .windowSpec pb ob fr =>
          if strToLower (String.intercalate "." name) = "row_number" then
            .windowSpec (rewriteRowNumberArgs pb) monotonicOrderBy none
          else
            .windowSpec (rewriteRowNumberArgs pb) (rewriteRowNumberObl ob) fr
      | .noOver => .noOver
      | .namedWindow n => .namedWindow n
    .function name (rewriteRowNumberArgs args) overOut

/-- `rewrite_row_number` on an expression list. -/
def rewriteRowNumberArgs : SqlArgList → SqlArgList
| .nil => .nil
| .cons e es => .cons (rewriteRowNumber e) (rewriteRowNumberArgs es)

/-- `rewrite_row_number` on an ORDER BY list. -/
def rewriteRowNumberObl : OrderByList → OrderByList
| .nil => .nil
| .cons o os => .cons (rewriteRowNumberObe o) (rewriteRowNumberObl os)

/-- `rewrite_row_number` on a single ORDER BY element. -/
def rewriteRowNumberObe : OrderByExpr → OrderByExpr
| .mk e a nf => .mk (rewriteRowNumber e) a nf

end

mutual

/-- `rewrite_inf_and_nan` from `spark.rs`, at the expression level.  A numeric
literal whose lowercased string is in `SPECIAL_VALUES` is replaced by the call
`float('<original>')` whose argument is a single-quoted string carrying the
original span.  The pre-order visitor then descends into the children of the
replacement, which are left fixed by the closure, so the replacement is
returned directly. -/
def rewriteInfNan : SqlExpr → SqlExpr
| .value (.number s long) sp =>
    if SPECIAL_VALUES.contains (strToLower s) then
      .function ["float"] (.cons (.value (.singleQuotedString s) sp) .nil) .noOver
    else .value (.number s long) sp
| .value (.singleQuotedString s) sp => .value (.singleQuotedString s) sp
| .ident n => .ident n
| .compoundIdent ns => .compoundIdent ns
| .binaryOp l op r => .binaryOp (rewriteInfNan l) op (rewriteInfNan r)
| .wildcard => .wildcard
| .function name args over => .function name (rewriteInfNanArgs args) (rewriteInfNanOver over)

/-- `rewrite_inf_and_nan` on an expression list. -/
def rewriteInfNanArgs : SqlArgList → SqlArgList
| .nil => .nil
| .cons e es => .cons (rewriteInfNan e) (rewriteInfNanArgs es)

/-- `rewrite_inf_and_nan` descending into the expressions of an over-clause. -/
def rewriteInfNanOver : OverClause → OverClause
| .noOver => .noOver
| .windowSpec pb ob fr => .windowSpec (rewriteInfNanArgs pb) (rewriteInfNanObl ob) fr
| .namedWindow n => .namedWindow n

/-- `rewrite_inf_and_nan` on an ORDER BY list. -/
def rewriteInfNanObl : OrderByList → OrderByList
| .nil => .nil
| .cons o os => .cons (rewriteInfNanObe o) (rewriteInfNanObl os)

/-- `rewrite_inf_and_nan` on a single ORDER BY element. -/
def rewriteInfNanObe : OrderByExpr → OrderByExpr
| .mk e a nf => .mk (rewriteInfNan e) a nf

end

mutual

/-- Checks that every function call named `row_number` (case-insensitive) with
a `WindowSpec` over-clause has its window frame cleared and its ORDER BY list
equal to `monotonicOrderBy`, recursively through the whole expression. -/
def rowNumberDone : SqlExpr → Bool
| .value _ _ => true
| .ident _ => true
| .compoundIdent _ => true
| .binaryOp l _ r => rowNumberDone l && rowNumberDone r
| .wildcard => true
| .function name args over =>
    (if strToLower (String.intercalate "." name) = "row_number" then
      match over with
      | .windowSpec _ (.cons (.mk (.ident obn) Option.none Option.none) .nil) fr =>
          obn = "monotonically_increasing_id()" ∧ fr = none
      | .windowSpec _ _ _ => false
      | _ => true
    else true)
    && rowNumberDoneArgs args && rowNumberDoneOver over

/-- `rowNumberDone` on an expression list. -/
def rowNumberDoneArgs : SqlArgList → Bool
| .nil => true
| .cons e es => rowNumberDone e && rowNumberDoneArgs es

/-- `rowNumberDone` on an over-clause. -/
def rowNumberDoneOver : OverClause → Bool
| .noOver => true
| .windowSpec pb ob _ => rowNumberDoneArgs pb && rowNumberDoneObl ob
| .namedWindow _ => true

/-- `rowNumberDone` on an ORDER BY list. -/
def rowNumberDoneObl : OrderByList → Bool
| .nil => true
| .cons o os => rowNumberDoneObe o && rowNumberDoneObl os

/-- `rowNumberDone` on an ORDER BY element. -/
def rowNumberDoneObe : OrderByExpr → Bool
| .mk e _ _ => rowNumberDone e

end

mutual

/-- Checks that no numeric literal with a lowercased string in
`SPECIAL_VALUES` occurs anywhere in the expression. -/
def noSpecialNum : SqlExpr → Bool
| .value (.number s _) _ => !(SPECIAL_VALUES.contains (strToLower s))
| .value (.singleQuotedString _) _ => true
| .ident _ => true
| .compoundIdent _ => true
| .binaryOp l _ r => noSpecialNum l && noSpecialNum r
| .wildcard => true
| .function _ args over => noSpecialNumArgs args && noSpecialNumOver over

/-- `noSpecialNum` on an expression list. -/
def noSpecialNumArgs : SqlArgList → Bool
| .nil => true
| .cons e es => noSpecialNum e && noSpecialNumArgs es

/-- `noSpecialNum` on an over-clause. -/
def noSpecialNumOver : OverClause → Bool
| .noOver => true
| .windowSpec pb ob _ => noSpecialNumArgs pb && noSpecialNumObl ob
| .namedWindow _ => true

/-- `noSpecialNum` on an ORDER BY list. -/
def noSpecialNumObl : OrderByList → Bool
| .nil => true
| .cons o os => noSpecialNumObe o && noSpecialNumObl os

/-- `noSpecialNum` on an ORDER BY element. -/
def noSpecialNumObe : OrderByExpr → Bool
| .mk e _ _ => noSpecialNum e

end

/-! ### Statements and stringification

`spark.rs` feeds a whole `ast::Statement` to `visit_expressions_mut` and then
calls `Statement::to_string`.  The statements produced by the unparser for the
plans in scope are single SELECT queries over a named table or a derived
subquery, with an optional WHERE clause. -/

/-- A projection item (`ast::SelectItem`): an expression, optionally with an
`AS` alias, or a bare wildcard. -/
inductive SelectItem where
| unnamedExpr (e : SqlExpr)
| exprWithAlias (e : SqlExpr) (aliasName : String)

mutual

/-- A SELECT statement (`ast::Select` inside `ast::Statement::Query`):
projection list, FROM relation, optional WHERE selection. -/
inductive Select where
| mk (projection : List SelectItem) (relation : TableFactor) (selection : Option SqlExpr)

/-- A FROM relation (`ast::TableFactor`): a named table or a parenthesized
derived subquery. -/
inductive TableFactor where
| table (name : String)
| derived (sub : Select)

end

/-- Apply an expression transformation to a projection item. -/
def mapItem (f : SqlExpr → SqlExpr) : SelectItem → SelectItem
| .unnamedExpr e => .unnamedExpr (f e)
| .exprWithAlias e a => .exprWithAlias (f e) a

mutual

/-- Apply an expression transformation to every expression position of a
statement, recursing into derived subqueries.  This is how
`visit_expressions_mut` walks a statement: it hands each top-level expression
to the visitor, which itself traverses inside the expression; here `f` is
already the fused expression-level traversal. -/
def mapSelect (f : SqlExpr → SqlExpr) : Select → Select
| .mk proj rel sel => .mk (proj.map (mapItem f)) (mapRelation f rel) (sel.map f)

/-- `mapSelect` on a FROM relation. -/
def mapRelation (f : SqlExpr → SqlExpr) : TableFactor → TableFactor
| .table n => .table n
| .derived s => .derived (mapSelect f s)

end

/-- `rewrite_row_number` from `spark.rs`, at the statement level. -/
def rewriteRowNumberStmt (s : Select) : Select := mapSelect rewriteRowNumber s

/-- `rewrite_inf_and_nan` from `spark.rs`, at the statement level. -/
def rewriteInfNanStmt (s : Select) : Select := mapSelect rewriteInfNan s

/-- Render a SQL literal value, following the sqlparser `Display` instance
(modelled: numbers print bare, single-quoted strings print between quotes). -/
def renderValue : SqlValue → String
| .number s _ => s
| .singleQuotedString s => "'" ++ s ++ "'"

/-- Render a window frame, following sqlparser `Display` (modelled). -/
def renderFrame : Option WindowFrame → String
| none => ""
| some .rowsBetweenUnboundedPrecedingAndFollowing =>
    "ROWS BETWEEN UNBOUNDED PRECEDING AND UNBOUNDED FOLLOWING"

/-- Render an `asc` option of an ORDER BY element (modelled from sqlparser). -/
def renderAsc : Option Bool → String
| none => ""
| some true => " ASC"
| some false => " DESC"

/-- Render a `nulls_first` option of an ORDER BY element (modelled). -/
def renderNulls : Option Bool → String
| none => ""
| some true => " NULLS FIRST"
| some false => " NULLS LAST"

mutual

/-- Modelled from the spec: sqlparser `Display` for expressions, as exercised
by the expected SQL strings of the S1, S2 and S3 scenarios. -/
def renderExpr : SqlExpr → String
| .value v _ => renderValue v
| .ident n => n
| .compoundIdent ns => String.intercalate "." ns
| .binaryOp l op r => renderExpr l ++ " " ++ op ++ " " ++ renderExpr r
| .wildcard => "*"
| .function name args over =>
    String.intercalate "." name ++ "(" ++ String.intercalate ", " (renderArgs args) ++ ")"
      ++ renderOver over

/-- Render each expression of an argument list. -/
def renderArgs : SqlArgList → List String
| .nil => []
| .cons e es => renderExpr e :: renderArgs es

/-- Render an over-clause (modelled from sqlparser `Display`). -/
def renderOver : OverClause → String
| .noOver => ""
| .windowSpec pb ob fr =>
    " OVER (" ++
      String.intercalate " "
        (([renderPartitionBy pb, renderOrderByClause ob, renderFrame fr]).filter
          (fun s => !s.isEmpty)) ++ ")"
| .namedWindow n => " OVER " ++ n

/-- Render a PARTITION BY clause, empty when the list is empty. -/
def renderPartitionBy : SqlArgList → String
| .nil => ""
| .cons e es => "PARTITION BY " ++ String.intercalate ", " (renderExpr e :: renderArgs es)

/-- Render an ORDER BY clause, empty when the list is empty. -/
def renderOrderByClause : OrderByList → String
| .nil => ""
| .cons o os => "ORDER BY " ++ String.intercalate ", " (renderObe o :: renderObl os)

/-- Render each ORDER BY element. -/
def renderObl : OrderByList → List String
| .nil => []
| .cons o os => renderObe o :: renderObl os

/-- Render one ORDER BY element. -/
def renderObe : OrderByExpr → String
| .mk e a nf => renderExpr e ++ renderAsc a ++ renderNulls nf

end

/-- Render a projection item (modelled from sqlparser `Display`). -/
def renderItem : SelectItem → String
| .unnamedExpr e => renderExpr e
| .exprWithAlias e a => renderExpr e ++ " AS " ++ a

mutual

/-- Modelled from the spec: sqlparser `Display` for the SELECT statements the
transpiler emits (the `Statement::to_string` call in
`logical_plan_to_spark_sql`). -/
def renderSelect : Select → String
| .mk proj rel sel =>
    "SELECT " ++ String.intercalate ", " (proj.map renderItem) ++ " FROM " ++
      renderFactor rel ++
      (match sel with
       | none => ""
       | some e => " WHERE " ++ renderExpr e)

/-- Render a FROM relation. -/
def renderFactor : TableFactor → String
| .table n => n
| .derived s => "(" ++ renderSelect s ++ ")"

end

/-! ### DataFusion logical plans and the plan-level rewrite -/

/-- A DataFusion `Column`: an optional relation qualifier and a name. -/
structure Column where
  relation : Option String
  name : String
deriving DecidableEq

/-- DataFusion expressions (`datafusion_expr::Expr`), restricted to the
constructors occurring in the plans in scope: column references, literals
(carried in their unparsed string form), binary expressions, aliases, and
window function calls (payload reduced to the function name, which is all the
transpiler observes). -/
inductive LPExpr where
| column (c : Column)
| literal (s : String)
| binaryExpr (left : LPExpr) (op : String) (right : LPExpr)
| aliasExpr (e : LPExpr) (name : String)
| windowFunction (name : String)
deriving DecidableEq

/-- DataFusion logical plans (`datafusion_expr::LogicalPlan`), restricted to
the node kinds occurring in the transpiler scenarios: table scans,
projections, filters and window nodes. -/
inductive LogicalPlan where
| tableScan (tableName : String) (columns : List String)
| projection (exprs : List LPExpr) (input : LogicalPlan)
| filter (predicate : LPExpr) (input : LogicalPlan)
| window (windowExprs : List LPExpr) (input : LogicalPlan)
deriving DecidableEq

/-- The per-expression rewrite inside `rewrite_subquery_column_identifiers`:
`Expr::transform_up` replacing every `Expr::Column(c)` by
`Column::from_name(c.name)`, i.e. dropping the relation qualifier. -/
def unqualifyColumns : LPExpr → LPExpr
| .column c => .column ⟨none, c.name⟩
| .literal s => .literal s
| .binaryExpr l op r => .binaryExpr (unqualifyColumns l) op (unqualifyColumns r)
| .aliasExpr e n => .aliasExpr (unqualifyColumns e) n
| .windowFunction n => .windowFunction n

/-- Whether a plan node is a projection (the `matches!(*projection.input,
LogicalPlan::Projection { .. })` test in `spark.rs`). -/
def isProjection : LogicalPlan → Bool
| .projection _ _ => true
| _ => false

/-- The per-node function of `rewrite_subquery_column_identifiers`: a
projection whose input is itself a projection has every column reference in
its expressions unqualified; all other nodes pass through unchanged. -/
def scrubProjectionNode : LogicalPlan → LogicalPlan
| .projection exprs inp =>
    if isProjection inp then .projection (exprs.map unqualifyColumns) inp
    else .projection exprs inp
| p => p

/-- Bottom-up plan traversal (`transform_up_with_subqueries`; the embedded
expressions contain no subqueries). -/
def transformUp (f : LogicalPlan → LogicalPlan) : LogicalPlan → LogicalPlan
| .tableScan n cs => f (.tableScan n cs)
| .projection es i => f (.projection es (transformUp f i))
| .filter p i => f (.filter p (transformUp f i))
| .window es i => f (.window es (transformUp f i))

/-- `rewrite_subquery_column_identifiers` from `spark.rs`. -/
def rewrite_subquery_column_identifiers (p : LogicalPlan) : LogicalPlan :=
  transformUp scrubProjectionNode p

/-- The columns exposed by a plan, as (qualifier, name) pairs; used by the
modelled unparser to expand a window node's input schema. -/
def planColumns : LogicalPlan → List (String × String)
| .tableScan t cols => cols.map (fun c => (t, c))
| .projection _ i => planColumns i
| .filter _ i => planColumns i
| .window _ i => planColumns i

/-- Conversion of a DataFusion expression to a SQL expression, following the
DataFusion unparser (modelled): qualified columns become compound
identifiers, unqualified columns plain identifiers, literals numeric values
(with a fresh zero span), and window functions calls carrying the
`ROWS BETWEEN UNBOUNDED PRECEDING AND UNBOUNDED FOLLOWING` frame that
DataFusion emits (see the doc comment of `rewrite_row_number`). -/
def toSqlExpr : LPExpr → SqlExpr
| .column ⟨some q, n⟩ => .compoundIdent [q, n]
| .column ⟨none, n⟩ => .ident n
| .literal s => .value (.number s false) 0
| .binaryExpr l op r => .binaryOp (toSqlExpr l) op (toSqlExpr r)
| .aliasExpr e _ => toSqlExpr e
| .windowFunction n =>
    .function [n] .nil
      (.windowSpec .nil .nil (some .rowsBetweenUnboundedPrecedingAndFollowing))

/-- Conversion of a DataFusion expression to a projection item: aliases become
`AS` items, everything else an unnamed expression (modelled). -/
def toSelectItem : LPExpr → SelectItem
| .aliasExpr e n => .exprWithAlias (toSqlExpr e) n
| e => .unnamedExpr (toSqlExpr e)

/-- Modelled from the spec: the DataFusion unparser
(`Unparser::plan_to_sql` with the custom dialect and pretty printing), which
is external to the repository.  A scan becomes `SELECT * FROM t`; a filter
merges its predicate in front of the accumulated WHERE conjunction; a
projection over a projection wraps its input as a derived subquery and any
other projection replaces the projection list in place; a window node
prepends its window expressions to the input's qualified columns. -/
def unparse : LogicalPlan → Select
| .tableScan t _ => .mk [.unnamedExpr .wildcard] (.table t) none
| .filter p i =>
    match unparse i with
    | .mk proj rel sel =>
        .mk proj rel
          (some (match sel with
                 | none => toSqlExpr p
                 | some q => .binaryOp (toSqlExpr p) "AND" q))
| .projection es (.projection es' i') =>
    .mk (es.map toSelectItem) (.derived (unparse (.projection es' i'))) none
| .projection es (.tableScan t cs) =>
    match unparse (.tableScan t cs) with
    | .mk _ rel sel => .mk (es.map toSelectItem) rel sel
| .projection es (.filter p i') =>
    match unparse (.filter p i') with
    | .mk _ rel sel => .mk (es.map toSelectItem) rel sel
| .projection es (.window ws i') =>
    match unparse (.window ws i') with
    | .mk _ rel sel => .mk (es.map toSelectItem) rel sel
| .window es i =>
    match unparse i with
    | .mk _ rel sel =>
        .mk (es.map toSelectItem ++
              (planColumns i).map (fun qc => .unnamedExpr (.compoundIdent [qc.1, qc.2])))
          rel sel

/-- `logical_plan_to_spark_sql` from `spark.rs`: plan-level subquery scrub,
unparse to a SQL AST, the two AST rewrites in order, then stringify.  (The
Rust function returns `Result`; the only failure paths are inside the external
unparser, which the modelled fragment renders total.) -/
def logical_plan_to_spark_sql (plan : LogicalPlan) : String :=
  renderSelect
    (rewriteInfNanStmt
      (rewriteRowNumberStmt
        (unparse (rewrite_subquery_column_identifiers plan))))

/-! ### The three transpiler scenarios (S1, S2, S3) -/

/-- S1 input plan: scan of `test_table` with columns id, name, value, filtered
on `value > 0.0`, then a window node computing `row_number` aliased to
`_vf_order`. -/
def s1Plan : LogicalPlan :=
  .window [.aliasExpr (.windowFunction "row_number") "_vf_order"]
    (.filter
      (.binaryExpr (.column ⟨some "test_table", "value"⟩) ">" (.literal "0.0"))
      (.tableScan "test_table" ["id", "name", "value"]))

/-- S2 input plan: scan of `test_table` with columns id, value, filtered on
`value > NaN`, then `value < inf`, then `value > -inf` (DataFusion renders the
non-finite f64 literals as the strings NaN, inf and -inf). -/
def s2Plan : LogicalPlan :=
  .filter (.binaryExpr (.column ⟨some "test_table", "value"⟩) ">" (.literal "-inf"))
    (.filter (.binaryExpr (.column ⟨some "test_table", "value"⟩) "<" (.literal "inf"))
      (.filter (.binaryExpr (.column ⟨some "test_table", "value"⟩) ">" (.literal "NaN"))
        (.tableScan "test_table" ["id", "value"])))

/-- S3 input plan: scan of `test_table` with columns customer_name and
customer_age followed by two identity projections; DataFusion qualifies the
column references of both projections with the relation name. -/
def s3Plan : LogicalPlan :=
  .projection
    [.column ⟨some "test_table", "customer_name"⟩, .column ⟨some "test_table", "customer_age"⟩]
    (.projection
      [.column ⟨some "test_table", "customer_name"⟩, .column ⟨some "test_table", "customer_age"⟩]
      (.tableScan "test_table" ["customer_name", "customer_age"]))

/-! ### Shared runtime value types

`vegafusion_common` / `vegafusion_core` value types.  Their definitions are
not under `src/`, so their shapes are modelled from the specification
(section 3, "Data model"): scalars and tables are opaque payloads; a
`TaskValue` is `Scalar`, `Table` or `DataFrame`; a `TaskPlan` is `Scalar` or
`Plan`. -/

/-- Errors (`VegaFusionError`), reduced to the distinction the claims need:
internal errors versus everything else. -/
inductive VegaFusionErr where
| internal (msg : String)
| external (msg : String)
deriving DecidableEq

/-- An opaque DataFusion `ScalarValue` payload. -/
structure ScalarValue where
  tag : Nat
deriving DecidableEq

/-- An opaque materialized table (`VegaFusionTable`); only its schema (column
names) is observable in the embedded fragment. -/
structure VegaFusionTable where
  schemaCols : List String
deriving DecidableEq

/-- The reserved ordering column name (`vegafusion_common::data::ORDER_COL`,
given as `_vf_order` by the specification glossary). -/
def ORDER_COL : String := "_vf_order"

/-- A sort expression (`datafusion_expr::expr::Sort`). -/
structure SortExprDef where
  expr : LPExpr
  asc : Bool
  nullsFirst : Bool
deriving DecidableEq

/-- A DataFusion `DataFrame` as observed by the pipeline runner: an opaque
carrier with a schema, on which the only in-scope plan operation is `sort`.
Transform implementations (external to the pipeline runner) may return any
value of this type. -/
inductive DataFrame where
| source (schemaCols : List String)
| sortedBy (input : DataFrame) (sorts : List SortExprDef)
deriving DecidableEq

/-- The column names of a DataFrame's schema (`schema().inner()` field
lookup); sorting preserves the schema. -/
def DataFrame.schemaCols : DataFrame → List String
| .source cols => cols
| .sortedBy i _ => i.schemaCols

/-- Modelled from the spec: `DataFrame::sort` of the external engine, the
final plan operation the runner applies. -/
def DataFrame.sortDf (df : DataFrame) (sorts : List SortExprDef) :
    Except VegaFusionErr DataFrame :=
  .ok (.sortedBy df sorts)

/-- `vegafusion_common::column::flat_col`: an unqualified column reference
expression for a name. -/
def flat_col (n : String) : LPExpr := .column ⟨none, n⟩

/-- `TaskValue` (spec section 3): scalar, materialized table, or
unmaterialized DataFrame. -/
inductive TaskValue where
| scalar (v : ScalarValue)
| table (t : VegaFusionTable)
| dataFrame (d : DataFrame)
deriving DecidableEq

/-- `TaskPlan` (spec section 3): same shape minus `Table`. -/
inductive TaskPlan where
| scalar (v : ScalarValue)
| plan (p : LogicalPlan)
deriving DecidableEq

/-- Modelled from the spec: `TaskValue::as_scalar`, which succeeds exactly on
scalars. -/
def TaskValue.as_scalar : TaskValue → Except VegaFusionErr ScalarValue
| .scalar v => .ok v
| _ => .error (.internal "Value is not a scalar")

/-- Variable namespaces, in the declaration order of the specification
(section 3: namespace is Signal, Data or Scale). -/
inductive VariableNamespace where
| signal
| data
| scale
deriving DecidableEq

/-- A qualified variable `(namespace, name)`. -/
structure Variable where
  ns : VariableNamespace
  name : String
deriving DecidableEq

/-- The rank of a namespace in the modelled variable ordering. -/
def nsRank : VariableNamespace → Nat
| .signal => 0
| .data => 1
| .scale => 2

/-- Modelled from the spec: the derived ordering of `Variable` (spec section
3: "ordering is lexicographic by (namespace, name)"); the proto-generated
`Ord` instance is not under `src/`. -/
def varLe (a b : Variable) : Prop :=
  nsRank a.ns < nsRank b.ns ∨ (nsRank a.ns = nsRank b.ns ∧ a.name ≤ b.name)

instance : DecidableRel varLe := fun a b => by
  unfold varLe
  infer_instance

instance : IsTotal Variable varLe :=
  ⟨fun a b => by
    rcases Nat.lt_trichotomy (nsRank a.ns) (nsRank b.ns) with h | h | h
    · exact Or.inl (Or.inl h)
    · rcases le_total a.name b.name with h' | h'
      · exact Or.inl (Or.inr ⟨h, h'⟩)
      · exact Or.inr (Or.inr ⟨h.symm, h'⟩)
    · exact Or.inr (Or.inl h)⟩

instance : IsTrans Variable varLe :=
  ⟨fun a b c hab hbc => by
    rcases hab with h1 | ⟨h1, h1'⟩
    · rcases hbc with h2 | ⟨h2, _⟩
      · exact Or.inl (h1.trans h2)
      · exact Or.inl (h2 ▸ h1)
    · rcases hbc with h2 | ⟨h2, h2'⟩
      · exact Or.inl (h1 ▸ h2)
      · exact Or.inr ⟨h1.trans h2, h1'.trans h2'⟩⟩

/-- Ordering on accumulated `(Variable, TaskValue)` outputs by their key, the
`sorted_by_key(|(k, _v)| k.clone())` comparison. -/
def pairLe (a b : Variable × TaskValue) : Prop := varLe a.1 b.1

instance : DecidableRel pairLe := fun a b => by
  unfold pairLe
  infer_instance

instance : IsTotal (Variable × TaskValue) pairLe :=
  ⟨fun a b => IsTotal.total (r := varLe) a.1 b.1⟩

instance : IsTrans (Variable × TaskValue) pairLe :=
  ⟨fun _ _ _ hab hbc => Trans.trans (r := varLe) (s := varLe) hab hbc⟩

/-! ### The transform pipeline runner (`transform/pipeline.rs`) -/

/-- The per-task expression scope (`CompilationConfig`), with scopes as
association lists standing in for the Rust `HashMap`s; the timezone
configuration is irrelevant to the runner and omitted. -/
structure CompilationConfig where
  signal_scope : List (String × ScalarValue)
  data_scope : List (String × DataFrame)
deriving DecidableEq

/-- `HashMap::insert`: overwrite the binding when the key is present,
otherwise append it. -/
def scopeInsert {α : Type} : List (String × α) → String → α → List (String × α)
| [], k, v => [(k, v)]
| (k', v') :: rest, k, v =>
    if k' = k then (k, v) :: rest else (k', v') :: scopeInsert rest k v

/-- `HashMap::insert` on the `result_outputs` accumulator keyed by
`Variable`. -/
def outputsInsert : List (Variable × TaskValue) → Variable → TaskValue →
    List (Variable × TaskValue)
| [], k, v => [(k, v)]
| (k', v') :: rest, k, v =>
    if k' = k then (k, v) :: rest else (k', v') :: outputsInsert rest k v

/-- Modelled from the spec: `ctx.vegafusion_table`, registration of a
materialized table as a DataFrame with the same schema. -/
def vegafusionTableToDf (t : VegaFusionTable) : Except VegaFusionErr DataFrame :=
  .ok (.source t.schemaCols)

/-- A transform (`TransformTrait`): an evaluation function from carrier
DataFrame and config to output DataFrame plus emitted values, and the
statically declared output variables. -/
structure Transform where
  eval : DataFrame → CompilationConfig → Except VegaFusionErr (DataFrame × List TaskValue)
  output_vars : List Variable

/-- The per-output bookkeeping of the runner's loop body: insert the pair in
`result_outputs`, then extend the config scope according to the variable's
namespace.  The Rust `unimplemented!()` panics (scale namespace, and data
values that are neither `DataFrame` nor `Table`) are modelled as internal
errors. -/
def processOutput (config : CompilationConfig) (outs : List (Variable × TaskValue))
    (var : Variable) (val : TaskValue) :
    Except VegaFusionErr (CompilationConfig × List (Variable × TaskValue)) :=
  let outs' := outputsInsert outs var val
  match var.ns with
  | .signal =>
      match val.as_scalar with
      | .error e => .error e
      | .ok s =>
          .ok ({ config with signal_scope := scopeInsert config.signal_scope var.name s }, outs')
  | .data =>
      match val with
      | .dataFrame df =>
          .ok ({ config with data_scope := scopeInsert config.data_scope var.name df }, outs')
      | .table t =>
          match vegafusionTableToDf t with
          | .error e => .error e
          | .ok df =>
              .ok ({ config with data_scope := scopeInsert config.data_scope var.name df }, outs')
      | .scalar _ => .error (.internal "unimplemented")
  | .scale => .error (.internal "unimplemented")

/-- Fold `processOutput` over the zipped `(output_vars, emitted values)`
pairs of one transform. -/
def processOutputs (config : CompilationConfig) (outs : List (Variable × TaskValue)) :
    List (Variable × TaskValue) →
    Except VegaFusionErr (CompilationConfig × List (Variable × TaskValue))
| [] => .ok (config, outs)
| (var, val) :: rest =>
    match processOutput config outs var val with
    | .error e => .error e
    | .ok (config', outs') => processOutputs config' outs' rest

/-- The error message for a missing order column on the input DataFrame. -/
def inputMissingOrderColMsg : String :=
  "DataFrame input to eval_sql does not have the expected _vf_order ordering column"

/-- The error message for a missing order column on a transform's output (the
source appends a debug rendering of the transform, omitted here). -/
def outputMissingOrderColMsg : String :=
  "DataFrame output of transform does not have the expected _vf_order ordering column"

/-- The runner's transform loop from `build_dataframe`: evaluate each
transform, fail if the output schema lacks the order column, and thread the
config scope and the `result_outputs` accumulator. -/
def runTransforms : List Transform → DataFrame → CompilationConfig →
    List (Variable × TaskValue) →
    Except VegaFusionErr (DataFrame × List (Variable × TaskValue))
| [], df, _, outs => .ok (df, outs)
| tx :: rest, df, config, outs =>
    match tx.eval df config with
    | .error e => .error e
    | .ok (df2, vals) =>
        if df2.schemaCols.contains ORDER_COL then
          match processOutputs config outs (tx.output_vars.zip vals) with
          | .error e => .error e
          | .ok (config2, outs2) => runTransforms rest df2 config2 outs2
        else .error (.internal outputMissingOrderColMsg)

/-- The sorted output pairs: `itertools::sorted_by_key` on the accumulator,
modelled by insertion sort on the (total, transitive) modelled variable
order.  Keys in the accumulator are unique, so any sorting algorithm yields
the same list. -/
def sortOutputs (outs : List (Variable × TaskValue)) : List (Variable × TaskValue) :=
  List.insertionSort pairLe outs

/-- `build_dataframe` from `transform/pipeline.rs`: check the input order
column, run the transform loop, sort by the order column, and return the
DataFrame together with the output values sorted by their variable. -/
def build_dataframe (pipeline : List Transform) (sql_df : DataFrame)
    (config : CompilationConfig) :
    Except VegaFusionErr (DataFrame × List TaskValue) :=
  if sql_df.schemaCols.contains ORDER_COL then
    match runTransforms pipeline sql_df config [] with
    | .error e => .error e
    | .ok (df, outs) =>
        match df.sortDf [⟨flat_col ORDER_COL, true, false⟩] with
        | .error e => .error e
        | .ok sortedDf => .ok (sortedDf, (sortOutputs outs).map Prod.snd)
  else .error (.internal inputMissingOrderColMsg)

/-- `eval_to_df` from `TransformPipelineUtils`: build the final DataFrame
(`eval_sql` additionally materializes it through the external
`collect_to_table`, outside the embedded fragment). -/
def eval_to_df (pipeline : List Transform) (df : DataFrame) (config : CompilationConfig) :
    Except VegaFusionErr (DataFrame × List TaskValue) :=
  build_dataframe pipeline df config

/-! ### Signal tasks (`signal/mod.rs`) -/

/-- The timezone configuration (`RuntimeTzConfig`), opaque to the handlers in
scope. -/
structure RuntimeTzConfig where
  local_tz : String
  default_input_tz : String
deriving DecidableEq

/-- A signal task: its expression, opaque to the embedded fragment. -/
structure SignalTask where
  expr : String
deriving DecidableEq

/-- The type of `eval_signal_to_scalar_value`, the helper shared by both
handlers of the `TaskCall` impl for `SignalTask`.  Its body (expression
compilation and constant folding) is not under `src/`, so the handlers are
stated for an arbitrary such function. -/
def SignalEvalFn : Type :=
  SignalTask → List TaskValue → Option RuntimeTzConfig → Except VegaFusionErr ScalarValue

/-- `TaskCall::eval` for `SignalTask`: evaluate the shared helper and wrap
the scalar as a `TaskValue::Scalar` with no side outputs. -/
def SignalTask.evalCall (h : SignalEvalFn) (t : SignalTask) (values : List TaskValue)
    (tz_config : Option RuntimeTzConfig) :
    Except VegaFusionErr (TaskValue × List TaskValue) :=
  match h t values tz_config with
  | .error e => .error e
  | .ok v => .ok (.scalar v, [])

/-- `TaskCall::plan` for `SignalTask`: evaluate the same shared helper and
wrap the scalar as a `TaskPlan::Scalar` with no side outputs. -/
def SignalTask.planCall (h : SignalEvalFn) (t : SignalTask) (values : List TaskValue)
    (tz_config : Option RuntimeTzConfig) :
    Except VegaFusionErr (TaskPlan × List TaskValue) :=
  match h t values tz_config with
  | .error e => .error e
  | .ok v => .ok (.scalar v, [])

/-! ### Task dispatch (`task_graph/task.rs`) -/

/-- The proto-encoded payload of a `Value` task.  The proto representation
(not under `src/`) encodes scalars and tables, never DataFrames. -/
inductive ProtoTaskValue where
| pScalar (s : ScalarValue)
| pTable (t : VegaFusionTable)
deriving DecidableEq

/-- Modelled from the spec: the `value.try_into()` conversion of a proto task
value into a `TaskValue` (`vegafusion_core`, not under `src/`). -/
def protoToTaskValue : ProtoTaskValue → Except VegaFusionErr TaskValue
| .pScalar s => .ok (.scalar s)
| .pTable t => .ok (.table t)

/-- The two handler surfaces of a non-`Value` task kind, already applied to
their inputs; the embedded dispatcher only forwards to them. -/
structure TaskHandlers where
  evalH : Except VegaFusionErr (TaskValue × List TaskValue)
  planH : Except VegaFusionErr (TaskPlan × List TaskValue)

/-- A task kind (`TaskKind`): a literal value or one of the four delegating
kinds. -/
inductive TaskKind where
| value (v : ProtoTaskValue)
| dataUrl (h : TaskHandlers)
| dataValues (h : TaskHandlers)
| dataSource (h : TaskHandlers)
| signal (h : TaskHandlers)

/-- `TaskCall::eval` for `Task`: a `Value` task converts its stored value,
the other kinds delegate. -/
def Task.evalTask : TaskKind → Except VegaFusionErr (TaskValue × List TaskValue)
| .value v =>
    match protoToTaskValue v with
    | .error e => .error e
    | .ok tv => .ok (tv, [])
| .dataUrl h => h.evalH
| .dataValues h => h.evalH
| .dataSource h => h.evalH
| .signal h => h.evalH

/-- `TaskCall::plan` for `Task`: a `Value` task converts its stored value and
admits only scalars (the source matches `Scalar` and `Table`; the proto
conversion never yields a DataFrame), the other kinds delegate. -/
def Task.planTask : TaskKind → Except VegaFusionErr (TaskPlan × List TaskValue)
| .value v =>
    match protoToTaskValue v with
    | .error e => .error e
    | .ok (.scalar s) => .ok (.scalar s, [])
    | .ok _ => .error (.internal "Cannot convert Table TaskValue to TaskPlan")
| .dataUrl h => h.planH
| .dataValues h => h.planH
| .dataSource h => h.planH
| .signal h => h.planH

/-! ### The aggregate extractor (`data/util.rs`) -/

/-- An opaque aggregate-function payload (`expr::AggregateFunction`); the
rewriter replaces the whole node without visiting its arguments, so the
payload is never traversed. -/
structure AggregateFunctionDef where
  tag : Nat
deriving DecidableEq

/-- DataFusion expressions as traversed by `PureAggRewriter`: aggregate
nodes, column references, binary expressions, aliases, literals. -/
inductive DFExpr where
| column (name : String)
| aggregateFunction (agg : AggregateFunctionDef)
| binaryExpr (left : DFExpr) (op : String) (right : DFExpr)
| aliasExpr (e : DFExpr) (name : String)
| literal (s : String)
deriving DecidableEq

/-- The rewriter state: extracted aliased aggregates and the next fresh
index. -/
structure PureAggRewriter where
  pure_aggs : List DFExpr
  next_id : Nat
deriving DecidableEq

/-- `PureAggRewriter::new`. -/
def PureAggRewriter.new : PureAggRewriter := ⟨[], 0⟩

/-- `PureAggRewriter::new_agg_name`: produce `_agg_<next_id>` and increment
`next_id`. -/
def PureAggRewriter.new_agg_name (st : PureAggRewriter) : String × PureAggRewriter :=
  ("_agg_" ++ Nat.repr st.next_id, { st with next_id := st.next_id + 1 })

/-- `TreeNodeRewriter::f_down` for `PureAggRewriter`: an aggregate node is
replaced by a column named by `new_agg_name`, the original aggregate aliased
to that name is appended to `pure_aggs`, and the transformed flag is set;
every other node passes through untransformed. -/
def PureAggRewriter.f_down (st : PureAggRewriter) (node : DFExpr) :
    PureAggRewriter × DFExpr × Bool :=
  match node with
  | .aggregateFunction agg =>
      let (name, st1) := st.new_agg_name
      ({ st1 with pure_aggs := st1.pure_aggs ++ [.aliasExpr (.aggregateFunction agg) name] },
        .column name, true)
  | e => (st, e, false)

/-- The full `TreeNode::rewrite` driven by `f_down` (the rewriter has no
`f_up`): apply `f_down` pre-order, then recurse into the children of the
resulting node.  A replaced aggregate becomes a leaf column, so its child
recursion is trivial and the fused form returns it directly; all other nodes
are left by `f_down` unchanged and have their children rewritten. -/
def rewriteWithPureAggs : PureAggRewriter → DFExpr → PureAggRewriter × DFExpr
| st, .aggregateFunction agg =>
    let r := st.f_down (.aggregateFunction agg)
    (r.1, r.2.1)
| st, .binaryExpr l op r =>
    let (st1, l1) := rewriteWithPureAggs st l
    let (st2, r1) := rewriteWithPureAggs st1 r
    (st2, .binaryExpr l1 op r1)
| st, .aliasExpr e n =>
    let (st1, e1) := rewriteWithPureAggs st e
    (st1, .aliasExpr e1 n)
| st, .column n => (st, .column n)
| st, .literal s => (st, .literal s)

/-- The number of aggregate nodes an expression contains (each is replaced
exactly once by the rewriter). -/
def countAggs : DFExpr → Nat
| .aggregateFunction _ => 1
| .binaryExpr l _ r => countAggs l + countAggs r
| .aliasExpr e _ => countAggs e
| .column _ => 0
| .literal _ => 0

/-- The aliased aggregates extracted from an expression when the next fresh
index starts at `n`, in extraction order. -/
def extractedAggs (n : Nat) : DFExpr → List DFExpr
| .aggregateFunction agg => [.aliasExpr (.aggregateFunction agg) ("_agg_" ++ Nat.repr n)]
| .binaryExpr l _ r => extractedAggs n l ++ extractedAggs (n + countAggs l) r
| .aliasExpr e _ => extractedAggs n e
| .column _ => []
| .literal _ => []

/-- The alias names of a list of extracted aggregates. -/
def aggAliasNames (l : List DFExpr) : List String :=
  l.filterMap fun e =>
    match e with
    | .aliasExpr _ n => some n
    | _ => none

/-- Decimal decoding of a character, inverse of `Nat.digitChar` below 10. -/
def decDigit (c : Char) : Nat := c.toNat - 48

/-- Decimal decoding of a character list, the left inverse of `Nat.toDigits`
used to prove that generated aggregate names are pairwise distinct. -/
def decodeDec (l : List Char) : Nat :=
  l.foldl (fun a c => a * 10 + decDigit c) 0

/-- The composite AST rewrite of `logical_plan_to_spark_sql`:
`rewrite_row_number` then `rewrite_inf_and_nan`. -/
def sparkAstRewrites (s : Select) : Select :=
  rewriteInfNanStmt (rewriteRowNumberStmt s)

/-- The columns referenced by a DataFusion expression, in order. -/
def columnsOf : LPExpr → List Column
| .column c => [c]
| .literal _ => []
| .binaryExpr l _ r => columnsOf l ++ columnsOf r
| .aliasExpr e _ => columnsOf e
| .windowFunction _ => []

/-- The input DataFrame of the mixed-namespace pipeline run: just the order
column. -/
def cexDf : DataFrame := .source [ORDER_COL]

/-- A data value emitted by the mixed-namespace transform. -/
def cexDf2 : DataFrame := .source ["a_col"]

/-- A transform emitting a signal variable named `z` and a data variable
named `a` (in that order), leaving the carrier unchanged. -/
def cexTransform : Transform :=
  ⟨fun df _ => .ok (df, [.scalar ⟨1⟩, .dataFrame cexDf2]),
    [⟨.signal, "z"⟩, ⟨.data, "a"⟩]⟩

/-- An empty compilation config. -/
def cexConfig : CompilationConfig := ⟨[], []⟩

/-- The head-constructor tag of a SQL expression, used to state that the
non-finite-literal rewrite replaces no other node kind. -/
def exprHead : SqlExpr → Nat
| .value _ _ => 0
| .ident _ => 1
| .compoundIdent _ => 2
| .binaryOp _ _ _ => 3
| .wildcard => 4
| .function _ _ _ => 5

/-- Whether an expression is a numeric literal with a lowercased string in
`SPECIAL_VALUES` (the nodes `rewrite_inf_and_nan` replaces). -/
def isSpecialNumberLit : SqlExpr → Bool
| .value (.number s _) _ => SPECIAL_VALUES.contains (strToLower s)
| _ => false

/-- A DataFrame without the order column. -/
def c5BadInputDf : DataFrame := .source ["some_col"]

/-- A transform whose output DataFrame lacks the order column. -/
def c5BadTransform : Transform :=
  ⟨fun _ _ => .ok (.source ["some_col"], []), []⟩


mutual

theorem rowNumberDone_rrn : ∀ e : SqlExpr, rowNumberDone (rewriteRowNumber e) = true
| .value v sp => rfl
| .ident n => rfl
| .compoundIdent ns => rfl
| .wildcard => rfl
| .binaryOp l op r => by
    simp only [rewriteRowNumber, rowNumberDone, Bool.and_eq_true]
    exact ⟨rowNumberDone_rrn l, rowNumberDone_rrn r⟩
| .function name args over => by
    cases over with
    | noOver =>
        simp only [rewriteRowNumber, rowNumberDone, rowNumberDoneOver, Bool.and_eq_true]
        split <;> simp [rowNumberDoneArgs_rrn args]
    | namedWindow n =>
        simp only [rewriteRowNumber, rowNumberDone, rowNumberDoneOver, Bool.and_eq_true]
        split <;> simp [rowNumberDoneArgs_rrn args]
    | windowSpec pb ob fr =>
        by_cases hc : strToLower (String.intercalate "." name) = "row_number"
        · simp only [rewriteRowNumber, hc, if_true, rowNumberDone, rowNumberDoneOver,
            monotonicOrderBy, rowNumberDoneObl, rowNumberDoneObe, Bool.and_eq_true]
          simp [rowNumberDoneArgs_rrn args, rowNumberDoneArgs_rrn pb]
        · simp only [rewriteRowNumber, hc, if_false, rowNumberDone, rowNumberDoneOver,
            Bool.and_eq_true]
          simp [hc, rowNumberDoneArgs_rrn args, rowNumberDoneArgs_rrn pb,
            rowNumberDoneObl_rrn ob]

theorem rowNumberDoneArgs_rrn : ∀ as : SqlArgList,
    rowNumberDoneArgs (rewriteRowNumberArgs as) = true
| .nil => rfl
| .cons e es => by
    simp only [rewriteRowNumberArgs, rowNumberDoneArgs, Bool.and_eq_true]
    exact ⟨rowNumberDone_rrn e, rowNumberDoneArgs_rrn es⟩

theorem rowNumberDoneObl_rrn : ∀ ob : OrderByList,
    rowNumberDoneObl (rewriteRowNumberObl ob) = true
| .nil => rfl
| .cons o os => by
    simp only [rewriteRowNumberObl, rowNumberDoneObl, Bool.and_eq_true]
    exact ⟨rowNumberDoneObe_rrn o, rowNumberDoneObl_rrn os⟩

theorem rowNumberDoneObe_rrn : ∀ o : OrderByExpr,
    rowNumberDoneObe (rewriteRowNumberObe o) = true
| .mk e a nf => by
    simp only [rewriteRowNumberObe, rowNumberDoneObe]
    exact rowNumberDone_rrn e

end

mutual

theorem rrn_of_done : ∀ e : SqlExpr, rowNumberDone e = true → rewriteRowNumber e = e
| .value v sp, _ => rfl
| .ident n, _ => rfl
| .compoundIdent ns, _ => rfl
| .wildcard, _ => rfl
| .binaryOp l op r, h => by
    simp only [rowNumberDone, Bool.and_eq_true] at h
    simp only [rewriteRowNumber, rrn_of_done l h.1, rrn_of_done r h.2]
| .function name args over, h => by
    cases over with
    | noOver =>
        simp only [rowNumberDone, Bool.and_eq_true] at h
        simp only [rewriteRowNumber, rrnArgs_of_done args h.1.2]
    | namedWindow n =>
        simp only [rowNumberDone, Bool.and_eq_true] at h
        simp only [rewriteRowNumber, rrnArgs_of_done args h.1.2]
    | windowSpec pb ob fr =>
        simp only [rowNumberDone, rowNumberDoneOver, Bool.and_eq_true] at h
        obtain ⟨⟨h1, h2⟩, h3, h4⟩ := h
        by_cases hc : strToLower (String.intercalate "." name) = "row_number"
        · rw [if_pos hc] at h1
          rcases ob with _ | ⟨⟨obee, oba, obn⟩, obtail⟩
          · exact Bool.noConfusion h1
          · cases obee <;> try exact Bool.noConfusion h1
            cases oba <;> try exact Bool.noConfusion h1
            cases obn <;> try exact Bool.noConfusion h1
            cases obtail <;> try exact Bool.noConfusion h1
            rw [decide_eq_true_eq] at h1
            obtain ⟨hn, hf⟩ := h1
            subst hn hf
            simp only [rewriteRowNumber, hc, if_true, rrnArgs_of_done args h2,
              rrnArgs_of_done pb h3, monotonicOrderBy]
        · rw [if_neg hc] at h1
          simp only [rewriteRowNumber, hc, if_false, rrnArgs_of_done args h2,
            rrnArgs_of_done pb h3, rrnObl_of_done ob h4]

theorem rrnArgs_of_done : ∀ as : SqlArgList,
    rowNumberDoneArgs as = true → rewriteRowNumberArgs as = as
| .nil, _ => rfl
| .cons e es, h => by
    simp only [rowNumberDoneArgs, Bool.and_eq_true] at h
    simp only [rewriteRowNumberArgs, rrn_of_done e h.1, rrnArgs_of_done es h.2]

theorem rrnObl_of_done : ∀ ob : OrderByList,
    rowNumberDoneObl ob = true → rewriteRowNumberObl ob = ob
| .nil, _ => rfl
| .cons o os, h => by
    simp only [rowNumberDoneObl, Bool.and_eq_true] at h
    simp only [rewriteRowNumberObl, rrnObe_of_done o h.1, rrnObl_of_done os h.2]

theorem rrnObe_of_done : ∀ o : OrderByExpr,
    rowNumberDoneObe o = true → rewriteRowNumberObe o = o
| .mk e a nf, h => by
    simp only [rowNumberDoneObe] at h
    simp only [rewriteRowNumberObe, rrn_of_done e h]

end

mutual

theorem noSpecial_rin : ∀ e : SqlExpr, noSpecialNum (rewriteInfNan e) = true
| .value (.number s long) sp => by
    cases hs : SPECIAL_VALUES.contains (strToLower s) with
    | true =>
        simp only [rewriteInfNan, hs, if_true]
        simp [noSpecialNum, noSpecialNumArgs, noSpecialNumOver]
    | false =>
        have hs' : strToLower s ∉ SPECIAL_VALUES := by simpa using hs
        simp only [rewriteInfNan, hs]
        simp [noSpecialNum, hs']
| .value (.singleQuotedString s) sp => rfl
| .ident n => rfl
| .compoundIdent ns => rfl
| .wildcard => rfl
| .binaryOp l op r => by
    simp only [rewriteInfNan, noSpecialNum, Bool.and_eq_true]
    exact ⟨noSpecial_rin l, noSpecial_rin r⟩
| .function name args over => by
    simp only [rewriteInfNan, noSpecialNum, Bool.and_eq_true]
    exact ⟨noSpecialArgs_rin args, noSpecialOver_rin over⟩

theorem noSpecialArgs_rin : ∀ as : SqlArgList,
    noSpecialNumArgs (rewriteInfNanArgs as) = true
| .nil => rfl
| .cons e es => by
    simp only [rewriteInfNanArgs, noSpecialNumArgs, Bool.and_eq_true]
    exact ⟨noSpecial_rin e, noSpecialArgs_rin es⟩

theorem noSpecialOver_rin : ∀ ov : OverClause,
    noSpecialNumOver (rewriteInfNanOver ov) = true
| .noOver => rfl
| .namedWindow n => rfl
| .windowSpec pb ob fr => by
    simp only [rewriteInfNanOver, noSpecialNumOver, Bool.and_eq_true]
    exact ⟨noSpecialArgs_rin pb, noSpecialObl_rin ob⟩

theorem noSpecialObl_rin : ∀ ob : OrderByList,
    noSpecialNumObl (rewriteInfNanObl ob) = true
| .nil => rfl
| .cons o os => by
    simp only [rewriteInfNanObl, noSpecialNumObl, Bool.and_eq_true]
    exact ⟨noSpecialObe_rin o, noSpecialObl_rin os⟩

theorem noSpecialObe_rin : ∀ o : OrderByExpr,
    noSpecialNumObe (rewriteInfNanObe o) = true
| .mk e a nf => by
    simp only [rewriteInfNanObe, noSpecialNumObe]
    exact noSpecial_rin e

end

mutual

theorem rin_of_noSpecial : ∀ e : SqlExpr, noSpecialNum e = true → rewriteInfNan e = e
| .value (.number s long) sp, h => by
    simp only [noSpecialNum, Bool.not_eq_true'] at h
    have h' : strToLower s ∉ SPECIAL_VALUES := by simpa using h
    simp [rewriteInfNan, h, h']
| .value (.singleQuotedString s) sp, _ => rfl
| .ident n, _ => rfl
| .compoundIdent ns, _ => rfl
| .wildcard, _ => rfl
| .binaryOp l op r, h => by
    simp only [noSpecialNum, Bool.and_eq_true] at h
    simp only [rewriteInfNan, rin_of_noSpecial l h.1, rin_of_noSpecial r h.2]
| .function name args over, h => by
    simp only [noSpecialNum, Bool.and_eq_true] at h
    simp only [rewriteInfNan, rinArgs_of_noSpecial args h.1, rinOver_of_noSpecial over h.2]

theorem rinArgs_of_noSpecial : ∀ as : SqlArgList,
    noSpecialNumArgs as = true → rewriteInfNanArgs as = as
| .nil, _ => rfl
| .cons e es, h => by
    simp only [noSpecialNumArgs, Bool.and_eq_true] at h
    simp only [rewriteInfNanArgs, rin_of_noSpecial e h.1, rinArgs_of_noSpecial es h.2]

theorem rinOver_of_noSpecial : ∀ ov : OverClause,
    noSpecialNumOver ov = true → rewriteInfNanOver ov = ov
| .noOver, _ => rfl
| .namedWindow n, _ => rfl
| .windowSpec pb ob fr, h => by
    simp only [noSpecialNumOver, Bool.and_eq_true] at h
    simp only [rewriteInfNanOver, rinArgs_of_noSpecial pb h.1, rinObl_of_noSpecial ob h.2]

theorem rinObl_of_noSpecial : ∀ ob : OrderByList,
    noSpecialNumObl ob = true → rewriteInfNanObl ob = ob
| .nil, _ => rfl
| .cons o os, h => by
    simp only [noSpecialNumObl, Bool.and_eq_true] at h
    simp only [rewriteInfNanObl, rinObe_of_noSpecial o h.1, rinObl_of_noSpecial os h.2]

theorem rinObe_of_noSpecial : ∀ o : OrderByExpr,
    noSpecialNumObe o = true → rewriteInfNanObe o = o
| .mk e a nf, h => by
    simp only [noSpecialNumObe] at h
    simp only [rewriteInfNanObe, rin_of_noSpecial e h]

end

mutual

theorem done_rin : ∀ e : SqlExpr,
    rowNumberDone e = true → rowNumberDone (rewriteInfNan e) = true
| .value (.number s long) sp, _ => by
    cases hs : SPECIAL_VALUES.contains (strToLower s) with
    | true =>
        simp only [rewriteInfNan, hs, if_true]
        simp only [rowNumberDone, rowNumberDoneArgs, rowNumberDoneOver, Bool.and_eq_true]
        split <;> simp
    | false =>
        simp only [rewriteInfNan, hs]
        simp [rowNumberDone]
| .value (.singleQuotedString s) sp, _ => rfl
| .ident n, _ => rfl
| .compoundIdent ns, _ => rfl
| .wildcard, _ => rfl
| .binaryOp l op r, h => by
    simp only [rowNumberDone, Bool.and_eq_true] at h
    simp only [rewriteInfNan, rowNumberDone, Bool.and_eq_true]
    exact ⟨done_rin l h.1, done_rin r h.2⟩
| .function name args over, h => by
    simp only [rewriteInfNan]
    cases over with
    | noOver =>
        simp only [rowNumberDone, rowNumberDoneOver, rewriteInfNanOver, Bool.and_eq_true] at h ⊢
        exact ⟨⟨h.1.1, doneArgs_rin args h.1.2⟩, trivial⟩
    | namedWindow n =>
        simp only [rowNumberDone, rowNumberDoneOver, rewriteInfNanOver, Bool.and_eq_true] at h ⊢
        exact ⟨⟨h.1.1, doneArgs_rin args h.1.2⟩, trivial⟩
    | windowSpec pb ob fr =>
        simp only [rowNumberDone, rowNumberDoneOver, rewriteInfNanOver, Bool.and_eq_true] at h ⊢
        obtain ⟨⟨h1, h2⟩, h3, h4⟩ := h
        refine ⟨⟨?_, doneArgs_rin args h2⟩, doneArgs_rin pb h3, doneObl_rin ob h4⟩
        by_cases hc : strToLower (String.intercalate "." name) = "row_number"
        · rw [if_pos hc] at h1 ⊢
          rcases ob with _ | ⟨⟨obee, oba, obn⟩, obtail⟩
          · exact Bool.noConfusion h1
          · cases obee <;> try exact Bool.noConfusion h1
            cases oba <;> try exact Bool.noConfusion h1
            cases obn <;> try exact Bool.noConfusion h1
            cases obtail <;> try exact Bool.noConfusion h1
            rw [decide_eq_true_eq] at h1
            obtain ⟨hn, hf⟩ := h1
            subst hn hf
            simp [rewriteInfNanObl, rewriteInfNanObe, rewriteInfNan]
        · rw [if_neg hc]

theorem doneArgs_rin : ∀ as : SqlArgList,
    rowNumberDoneArgs as = true → rowNumberDoneArgs (rewriteInfNanArgs as) = true
| .nil, _ => rfl
| .cons e es, h => by
    simp only [rowNumberDoneArgs, Bool.and_eq_true] at h
    simp only [rewriteInfNanArgs, rowNumberDoneArgs, Bool.and_eq_true]
    exact ⟨done_rin e h.1, doneArgs_rin es h.2⟩

theorem doneObl_rin : ∀ ob : OrderByList,
    rowNumberDoneObl ob = true → rowNumberDoneObl (rewriteInfNanObl ob) = true
| .nil, _ => rfl
| .cons o os, h => by
    simp only [rowNumberDoneObl, Bool.and_eq_true] at h
    simp only [rewriteInfNanObl, rowNumberDoneObl, Bool.and_eq_true]
    exact ⟨doneObe_rin o h.1, doneObl_rin os h.2⟩

theorem doneObe_rin : ∀ o : OrderByExpr,
    rowNumberDoneObe o = true → rowNumberDoneObe (rewriteInfNanObe o) = true
| .mk e a nf, h => by
    simp only [rowNumberDoneObe] at h
    simp only [rewriteInfNanObe, rowNumberDoneObe]
    exact done_rin e h

end

theorem mapItem_comp (f g : SqlExpr → SqlExpr) (i : SelectItem) :
    mapItem f (mapItem g i) = mapItem (fun e => f (g e)) i := by
  cases i <;> rfl

mutual

theorem mapSelect_comp (f g : SqlExpr → SqlExpr) :
    ∀ s : Select, mapSelect f (mapSelect g s) = mapSelect (fun e => f (g e)) s
| .mk proj rel sel => by
    have hi : mapItem f ∘ mapItem g = mapItem (fun e => f (g e)) :=
      funext fun i => mapItem_comp f g i
    simp only [mapSelect, List.map_map, Option.map_map, hi,
      mapRelation_comp f g rel]
    rfl

theorem mapRelation_comp (f g : SqlExpr → SqlExpr) :
    ∀ r : TableFactor, mapRelation f (mapRelation g r) = mapRelation (fun e => f (g e)) r
| .table n => rfl
| .derived s => by
    simp only [mapRelation, mapSelect_comp f g s]

end

mutual

theorem mapSelect_congr (f g : SqlExpr → SqlExpr) (hfg : ∀ e, f e = g e) :
    ∀ s : Select, mapSelect f s = mapSelect g s
| .mk proj rel sel => by
    have hi : mapItem f = mapItem g := by
      funext i
      cases i <;> simp [mapItem, hfg]
    have ho : sel.map f = sel.map g := by
      cases sel <;> simp [hfg]
    simp only [mapSelect, hi, ho, mapRelation_congr f g hfg rel]

theorem mapRelation_congr (f g : SqlExpr → SqlExpr) (hfg : ∀ e, f e = g e) :
    ∀ r : TableFactor, mapRelation f r = mapRelation g r
| .table n => rfl
| .derived s => by
    simp only [mapRelation, mapSelect_congr f g hfg s]

end

theorem spark_pointwise_idem (e : SqlExpr) :
    rewriteInfNan (rewriteRowNumber (rewriteInfNan (rewriteRowNumber e))) =
      rewriteInfNan (rewriteRowNumber e) := by
  have hdone : rowNumberDone (rewriteInfNan (rewriteRowNumber e)) = true :=
    done_rin _ (rowNumberDone_rrn e)
  rw [rrn_of_done _ hdone, rin_of_noSpecial _ (noSpecial_rin _)]

theorem isProjection_scrub (p : LogicalPlan) :
    isProjection (scrubProjectionNode p) = isProjection p := by
  cases p with
  | projection es i =>
      simp only [scrubProjectionNode]
      split <;> rfl
  | tableScan n cs => rfl
  | filter pr i => rfl
  | window es i => rfl

theorem isProjection_rewriteSub (p : LogicalPlan) :
    isProjection (rewrite_subquery_column_identifiers p) = isProjection p := by
  cases p <;>
    simp only [rewrite_subquery_column_identifiers, transformUp, isProjection_scrub] <;>
    rfl

theorem columnsOf_unqualify (e : LPExpr) :
    columnsOf (unqualifyColumns e) = (columnsOf e).map fun c => ⟨none, c.name⟩ := by
  induction e with
  | column c => rfl
  | literal s => rfl
  | binaryExpr l op r ihl ihr => simp [columnsOf, unqualifyColumns, ihl, ihr]
  | aliasExpr e n ih => simp [columnsOf, unqualifyColumns, ih]
  | windowFunction n => rfl

theorem rewriteSub_projection (es : List LPExpr) (q : LogicalPlan) :
    rewrite_subquery_column_identifiers (.projection es q) =
      .projection (if isProjection q then es.map unqualifyColumns else es)
        (rewrite_subquery_column_identifiers q) := by
  show scrubProjectionNode (.projection es (rewrite_subquery_column_identifiers q)) = _
  simp only [scrubProjectionNode, isProjection_rewriteSub]
  split <;> rfl

theorem build_ok_shape (p : List Transform) (df : DataFrame) (c : CompilationConfig)
    (r : DataFrame) (sigs : List TaskValue)
    (h : build_dataframe p df c = .ok (r, sigs)) :
    ∃ df2 outs, runTransforms p df c [] = .ok (df2, outs) ∧
      r = .sortedBy df2 [⟨flat_col ORDER_COL, true, false⟩] ∧
      sigs = (sortOutputs outs).map Prod.snd := by
  unfold build_dataframe at h
  split at h
  · cases hrun : runTransforms p df c [] with
    | error e =>
        rw [hrun] at h
        exact absurd h (by simp)
    | ok pr =>
        obtain ⟨df2, outs⟩ := pr
        rw [hrun] at h
        simp only [DataFrame.sortDf, Except.ok.injEq, Prod.mk.injEq] at h
        exact ⟨df2, outs, rfl, h.1.symm, h.2.symm⟩
  · exact absurd h (by simp)

theorem sortOutputs_sorted (outs : List (Variable × TaskValue)) :
    List.Sorted varLe ((sortOutputs outs).map Prod.fst) := by
  have hs : List.Sorted pairLe (sortOutputs outs) :=
    List.sorted_insertionSort pairLe outs
  exact List.Pairwise.map Prod.fst (fun a b hab => hab) hs

theorem decDigit_digitChar (d : Nat) (h : d < 10) : decDigit (Nat.digitChar d) = d := by
  interval_cases d <;> rfl

theorem toDigitsCore_foldl (fuel : Nat) : ∀ (n : Nat) (ds : List Char), n < fuel →
    (Nat.toDigitsCore 10 fuel n ds).foldl (fun a c => a * 10 + decDigit c) 0 =
      ds.foldl (fun a c => a * 10 + decDigit c) n := by
  induction fuel with
  | zero => exact fun n ds h => absurd h (Nat.not_lt_zero n)
  | succ fuel ih =>
      intro n ds h
      simp only [Nat.toDigitsCore]
      by_cases h0 : n / 10 = 0
      · rw [if_pos h0]
        have hlt : n < 10 := (Nat.div_eq_zero_iff (by norm_num)).mp h0
        simp only [List.foldl]
        rw [decDigit_digitChar _ (Nat.mod_lt _ (by norm_num))]
        rw [Nat.mod_eq_of_lt hlt]
        simp
      · rw [if_neg h0]
        have hpos : 0 < n := by
          rcases Nat.eq_zero_or_pos n with h' | h'
          · subst h'; simp at h0
          · exact h'
        have hn' : n / 10 < fuel := by
          have h1 : n / 10 < n := Nat.div_lt_self hpos (by norm_num)
          omega
        rw [ih (n / 10) (Nat.digitChar (n % 10) :: ds) hn']
        simp only [List.foldl]
        rw [decDigit_digitChar _ (Nat.mod_lt _ (by norm_num))]
        congr 1
        omega

theorem decodeDec_repr (n : Nat) : decodeDec (Nat.repr n).data = n := by
  show (Nat.toDigitsCore 10 (n + 1) n []).foldl (fun a c => a * 10 + decDigit c) 0 = n
  rw [toDigitsCore_foldl (n + 1) n [] (Nat.lt_succ_self n)]
  rfl

theorem natRepr_injective : Function.Injective Nat.repr := by
  intro a b h
  have h' := congrArg (fun s => decodeDec s.data) h
  simpa only [decodeDec_repr] using h'

theorem aggName_injective : Function.Injective (fun i : Nat => "_agg_" ++ Nat.repr i) := by
  intro a b h
  apply natRepr_injective
  apply String.ext
  have hd := congrArg String.data h
  simp only [String.data_append] at hd
  exact List.append_cancel_left hd

theorem rewriteAggs_spec (e : DFExpr) : ∀ st : PureAggRewriter,
    (rewriteWithPureAggs st e).1.pure_aggs = st.pure_aggs ++ extractedAggs st.next_id e ∧
    (rewriteWithPureAggs st e).1.next_id = st.next_id + countAggs e := by
  induction e with
  | column n => intro st; simp [rewriteWithPureAggs, extractedAggs, countAggs]
  | literal s => intro st; simp [rewriteWithPureAggs, extractedAggs, countAggs]
  | aggregateFunction agg =>
      intro st
      simp [rewriteWithPureAggs, PureAggRewriter.f_down, PureAggRewriter.new_agg_name,
        extractedAggs, countAggs]
  | binaryExpr l op r ihl ihr =>
      intro st
      obtain ⟨hl1, hl2⟩ := ihl st
      obtain ⟨hr1, hr2⟩ := ihr (rewriteWithPureAggs st l).1
      simp only [rewriteWithPureAggs, extractedAggs, countAggs]
      constructor
      · rw [hr1, hl1, hl2, List.append_assoc]
      · rw [hr2, hl2]; omega
  | aliasExpr e n ih =>
      intro st
      obtain ⟨h1, h2⟩ := ih st
      simp only [rewriteWithPureAggs, extractedAggs, countAggs]
      exact ⟨h1, h2⟩

theorem length_extractedAggs (e : DFExpr) : ∀ n, (extractedAggs n e).length = countAggs e := by
  induction e with
  | column m => intro n; rfl
  | literal s => intro n; rfl
  | aggregateFunction agg => intro n; rfl
  | binaryExpr l op r ihl ihr =>
      intro n
      simp [extractedAggs, countAggs, ihl, ihr]
  | aliasExpr e m ih => intro n; simpa [extractedAggs, countAggs] using ih n

theorem aggAliasNames_append (l1 l2 : List DFExpr) :
    aggAliasNames (l1 ++ l2) = aggAliasNames l1 ++ aggAliasNames l2 :=
  List.filterMap_append l1 l2 _

theorem aggAliasNames_extracted (e : DFExpr) : ∀ n,
    aggAliasNames (extractedAggs n e) =
      (List.range' n (countAggs e)).map (fun i => "_agg_" ++ Nat.repr i) := by
  induction e with
  | column m => intro n; rfl
  | literal s => intro n; rfl
  | aggregateFunction agg => intro n; rfl
  | binaryExpr l op r ihl ihr =>
      intro n
      simp only [extractedAggs, countAggs]
      rw [aggAliasNames_append, ihl n, ihr (n + countAggs l), ← List.map_append,
        List.range'_append_1 n (countAggs l) (countAggs r), Nat.add_comm (countAggs r)]
  | aliasExpr e m ih => intro n; simpa [extractedAggs, countAggs] using ih n

/-- C1: `rewrite_subquery_column_identifiers` rewrites a projection whose input
is itself a projection by stripping the relation qualifier from every column
reference in its expressions (keeping the column name), leaves the expressions
of every other projection unchanged, and the S3 scan-project-project plan
transpiles to exactly the expected subquery SQL. -/
theorem c1_subquery_identifier_scrub :
    (∀ (exprs : List LPExpr) (q : LogicalPlan),
      rewrite_subquery_column_identifiers (.projection exprs q) =
        .projection (if isProjection q then exprs.map unqualifyColumns else exprs)
          (rewrite_subquery_column_identifiers q))
    ∧ (∀ e : LPExpr,
        columnsOf (unqualifyColumns e) = (columnsOf e).map fun c => ⟨none, c.name⟩)
    ∧ logical_plan_to_spark_sql s3Plan =
        "SELECT customer_name, customer_age FROM (SELECT test_table.customer_name, test_table.customer_age FROM test_table)" :=
  ⟨rewriteSub_projection, columnsOf_unqualify, by decide⟩

/-- C2: `rewrite_row_number` rewrites every function call named `row_number`
(case-insensitive) carrying a `WindowSpec` over-clause by clearing its window
frame and replacing its ORDER BY list with the single element
`monotonically_increasing_id()` with no asc/nulls options; after the rewrite
every such call is in that canonical form, and the S1 scan-filter-window plan
transpiles to exactly the expected SQL. -/
theorem c2_row_number_rewrite :
    (∀ (name : List String) (args pb : SqlArgList) (ob : OrderByList)
      (fr : Option WindowFrame),
      strToLower (String.intercalate "." name) = "row_number" →
      rewriteRowNumber (.function name args (.windowSpec pb ob fr)) =
        .function name (rewriteRowNumberArgs args)
          (.windowSpec (rewriteRowNumberArgs pb) monotonicOrderBy none))
    ∧ (∀ e : SqlExpr, rowNumberDone (rewriteRowNumber e) = true)
    ∧ logical_plan_to_spark_sql s1Plan =
        "SELECT row_number() OVER (ORDER BY monotonically_increasing_id()) AS _vf_order, test_table.id, test_table.name, test_table.value FROM test_table WHERE test_table.value > 0.0" := by
  refine ⟨?_, rowNumberDone_rrn, by decide⟩
  intro name args pb ob fr hc
  simp only [rewriteRowNumber, hc, if_true]

/-- Witness for C2 at a concrete `row_number` call with a windowed frame. -/
theorem c2_row_number_rewrite_witness :
    rewriteRowNumber (.function ["row_number"] .nil (.windowSpec .nil .nil
        (some .rowsBetweenUnboundedPrecedingAndFollowing))) =
      .function ["row_number"] .nil (.windowSpec .nil monotonicOrderBy none) :=
  c2_row_number_rewrite.1 ["row_number"] .nil .nil .nil
    (some .rowsBetweenUnboundedPrecedingAndFollowing) (by decide)

/-- C3: `rewrite_inf_and_nan` replaces every numeric literal whose lowercased
string is in `SPECIAL_VALUES` by the call the float call of the single-quoted original string with the
original string single-quoted and the original span preserved, replaces no
other node kind, leaves no such numeric literal in its output, and the S2
plan transpiles to exactly the expected SQL containing the float-wrapped
forms of NaN, inf and -inf. -/
theorem c3_inf_nan_rewrite :
    (∀ (s : String) (long : Bool) (sp : Nat),
      SPECIAL_VALUES.contains (strToLower s) = true →
      rewriteInfNan (.value (.number s long) sp) =
        .function ["float"] (.cons (.value (.singleQuotedString s) sp) .nil) .noOver)
    ∧ (∀ e : SqlExpr, isSpecialNumberLit e = false →
        exprHead (rewriteInfNan e) = exprHead e)
    ∧ (∀ e : SqlExpr, noSpecialNum (rewriteInfNan e) = true)
    ∧ logical_plan_to_spark_sql s2Plan =
        "SELECT * FROM test_table WHERE test_table.value > float('-inf') AND test_table.value < float('inf') AND test_table.value > float('NaN')" := by
  refine ⟨?_, ?_, noSpecial_rin, by decide⟩
  · intro s long sp hs
    simp only [rewriteInfNan, hs, if_true]
  · intro e he
    cases e with
    | value v sp =>
        cases v with
        | number s long =>
            simp only [isSpecialNumberLit] at he
            have he' : strToLower s ∉ SPECIAL_VALUES := by simpa using he
            simp [rewriteInfNan, he']
        | singleQuotedString s => rfl
    | ident n => rfl
    | compoundIdent ns => rfl
    | binaryOp l op r => rfl
    | wildcard => rfl
    | function name args over => rfl

/-- Witness for C3 at the literal `NaN` (span 7) and at a non-literal node. -/
theorem c3_inf_nan_rewrite_witness :
    rewriteInfNan (.value (.number "NaN" false) 7) =
      .function ["float"] (.cons (.value (.singleQuotedString "NaN") 7) .nil) .noOver ∧
    exprHead (rewriteInfNan (.ident "x")) = exprHead (.ident "x") :=
  ⟨c3_inf_nan_rewrite.1 "NaN" false 7 (by decide), c3_inf_nan_rewrite.2.1 (.ident "x") (by decide)⟩

/-- C8: the composite AST rewrite of `logical_plan_to_spark_sql`
(`rewrite_row_number` then `rewrite_inf_and_nan`) is idempotent: applied to an
already-rewritten statement it leaves it unchanged, the formulation the claim
states as equivalent to transpiling twice. -/
theorem c8_spark_rewrites_idempotent : ∀ s : Select,
    sparkAstRewrites (sparkAstRewrites s) = sparkAstRewrites s := by
  intro s
  show mapSelect rewriteInfNan (mapSelect rewriteRowNumber
      (mapSelect rewriteInfNan (mapSelect rewriteRowNumber s))) =
    mapSelect rewriteInfNan (mapSelect rewriteRowNumber s)
  rw [mapSelect_comp, mapSelect_comp, mapSelect_comp, mapSelect_comp]
  exact mapSelect_congr _ _ (fun e => spark_pointwise_idem e) s

/-- C4: for every signal task, input values, timezone configuration and
evaluation helper, `TaskCall::plan` returns `Ok((TaskPlan::Scalar v, []))`
exactly when `TaskCall::eval` returns `Ok((TaskValue::Scalar v, []))` with the
identical scalar, and both fail with the same error on the same inputs. -/
theorem c4_signal_plan_eval_agree : ∀ (h : SignalEvalFn) (t : SignalTask) (values : List TaskValue)
    (tz : Option RuntimeTzConfig),
    (∀ v : ScalarValue,
      SignalTask.planCall h t values tz = .ok (.scalar v, []) ↔
        SignalTask.evalCall h t values tz = .ok (.scalar v, []))
    ∧ (∀ e : VegaFusionErr,
      SignalTask.planCall h t values tz = .error e ↔
        SignalTask.evalCall h t values tz = .error e) := by
  intro h t values tz
  constructor
  · intro v
    cases hr : h t values tz <;>
      simp [SignalTask.planCall, SignalTask.evalCall, hr]
  · intro e
    cases hr : h t values tz <;>
      simp [SignalTask.planCall, SignalTask.evalCall, hr]

/-- C5: pipeline evaluation fails with the internal missing-order-column
error, for every pipeline, when the input DataFrame lacks `_vf_order` (before
any transform result is consulted), and the transform loop aborts with the
internal error when any transform output lacks `_vf_order`, surfacing no
partial output. -/
theorem c5_order_column_errors :
    (∀ (p : List Transform) (df : DataFrame) (c : CompilationConfig),
      df.schemaCols.contains ORDER_COL = false →
      build_dataframe p df c = .error (.internal inputMissingOrderColMsg))
    ∧ (∀ (tx : Transform) (rest : List Transform) (df : DataFrame)
        (c : CompilationConfig) (outs : List (Variable × TaskValue))
        (df2 : DataFrame) (vals : List TaskValue),
      tx.eval df c = .ok (df2, vals) →
      df2.schemaCols.contains ORDER_COL = false →
      runTransforms (tx :: rest) df c outs = .error (.internal outputMissingOrderColMsg)) := by
  constructor
  · intro p df c h
    have h' : ORDER_COL ∉ df.schemaCols := by simpa using h
    simp [build_dataframe, h']
  · intro tx rest df c outs df2 vals h1 h2
    have h2' : ORDER_COL ∉ df2.schemaCols := by simpa using h2
    simp [runTransforms, h1, h2']

/-- Witness for C5 on a DataFrame without the order column and a transform
that drops it. -/
theorem c5_order_column_errors_witness :
    build_dataframe [] c5BadInputDf cexConfig = .error (.internal inputMissingOrderColMsg) ∧
    runTransforms [c5BadTransform] cexDf cexConfig [] =
      .error (.internal outputMissingOrderColMsg) :=
  ⟨c5_order_column_errors.1 [] c5BadInputDf cexConfig (by decide),
    c5_order_column_errors.2 c5BadTransform [] cexDf cexConfig [] (.source ["some_col"]) [] rfl (by decide)⟩

/-- C6 counterexample: a transform emitting signal variable `z` and data
variable `a` yields the output values in the order (value of `z`, value of
`a`) because the sort key is the whole variable, namespace first; ascending
order of the emitting variable names would instead put the value of `a`
first, so the output is not sorted by variable name. -/
theorem c6_mixed_namespace_counterexample :
    build_dataframe [cexTransform] cexDf cexConfig =
      .ok (.sortedBy cexDf [⟨flat_col ORDER_COL, true, false⟩],
        [.scalar ⟨1⟩, .dataFrame cexDf2]) ∧
    ([TaskValue.scalar ⟨1⟩, TaskValue.dataFrame cexDf2] ≠
      [TaskValue.dataFrame cexDf2, TaskValue.scalar ⟨1⟩]) :=
  ⟨rfl, by decide⟩

/-- C6 (amended): the returned values are the accumulated outputs sorted by
their emitting variable under the lexicographic (namespace, name) order; this
equals name order exactly when all emitted variables share a namespace. -/
theorem c6_sorted_by_variable : ∀ (p : List Transform) (df : DataFrame)
    (c : CompilationConfig) (r : DataFrame) (sigs : List TaskValue),
    build_dataframe p df c = .ok (r, sigs) →
    ∃ df2 outs, runTransforms p df c [] = .ok (df2, outs) ∧
      sigs = (sortOutputs outs).map Prod.snd ∧
      List.Sorted varLe ((sortOutputs outs).map Prod.fst) := by
  intro p df c r sigs h
  obtain ⟨df2, outs, h1, _, h3⟩ := build_ok_shape p df c r sigs h
  exact ⟨df2, outs, h1, h3, sortOutputs_sorted outs⟩

/-- Witness for the amended C6 on an empty pipeline. -/
theorem c6_sorted_by_variable_witness :
    ∃ df2 outs, runTransforms [] cexDf cexConfig [] = .ok (df2, outs) ∧
      ([] : List TaskValue) = (sortOutputs outs).map Prod.snd ∧
      List.Sorted varLe ((sortOutputs outs).map Prod.fst) :=
  c6_sorted_by_variable [] cexDf cexConfig
    (.sortedBy cexDf [⟨flat_col ORDER_COL, true, false⟩]) [] rfl

/-- C7: every successful pipeline evaluation returns the last transform
output wrapped in a final `sort(_vf_order ASC, nulls_last)` plan operation
(ascending with `nulls_first = false`). -/
theorem c7_final_sort : ∀ (p : List Transform) (df : DataFrame)
    (c : CompilationConfig) (r : DataFrame) (sigs : List TaskValue),
    build_dataframe p df c = .ok (r, sigs) →
    ∃ df2 outs, runTransforms p df c [] = .ok (df2, outs) ∧
      r = .sortedBy df2 [⟨flat_col ORDER_COL, true, false⟩] := by
  intro p df c r sigs h
  obtain ⟨df2, outs, h1, h2, _⟩ := build_ok_shape p df c r sigs h
  exact ⟨df2, outs, h1, h2⟩

/-- Witness for C7 on a one-transform pipeline. -/
theorem c7_final_sort_witness :
    ∃ df2 outs, runTransforms [cexTransform] cexDf cexConfig [] = .ok (df2, outs) ∧
      DataFrame.sortedBy cexDf [⟨flat_col ORDER_COL, true, false⟩] =
        .sortedBy df2 [⟨flat_col ORDER_COL, true, false⟩] :=
  c7_final_sort [cexTransform] cexDf cexConfig
    (.sortedBy cexDf [⟨flat_col ORDER_COL, true, false⟩])
    [.scalar ⟨1⟩, .dataFrame cexDf2] rfl

/-- C9: `Task::plan` on a `Value` task returns `Ok((TaskPlan::Scalar v, []))`
when the stored value converts to a scalar and fails with the internal error
"Cannot convert Table TaskValue to TaskPlan" whenever the stored value is a
table, while `Task::eval` happily returns the table. -/
theorem c9_value_task_plan :
    (∀ s : ScalarValue,
      Task.planTask (.value (.pScalar s)) = .ok (.scalar s, []))
    ∧ (∀ t : VegaFusionTable,
      Task.planTask (.value (.pTable t)) =
        .error (.internal "Cannot convert Table TaskValue to TaskPlan"))
    ∧ (∀ s : ScalarValue, Task.evalTask (.value (.pScalar s)) = .ok (.scalar s, []))
    ∧ (∀ t : VegaFusionTable, Task.evalTask (.value (.pTable t)) = .ok (.table t, [])) :=
  ⟨fun _ => rfl, fun _ => rfl, fun _ => rfl, fun _ => rfl⟩

/-- C10: `PureAggRewriter::f_down` replaces an aggregate node by a column
named `_agg_<next_id>` and appends the original aggregate aliased to that
name; rewriting any expression from the fresh state extracts exactly one
aliased entry per aggregate node, with alias names `_agg_0 ... _agg_(k-1)` in
order, pairwise distinct. -/
theorem c10_pure_agg_rewriter :
    (∀ (st : PureAggRewriter) (agg : AggregateFunctionDef),
      st.f_down (.aggregateFunction agg) =
        ({ pure_aggs := st.pure_aggs ++
            [.aliasExpr (.aggregateFunction agg) ("_agg_" ++ Nat.repr st.next_id)],
           next_id := st.next_id + 1 },
          .column ("_agg_" ++ Nat.repr st.next_id), true))
    ∧ (∀ e : DFExpr,
      (rewriteWithPureAggs PureAggRewriter.new e).1.pure_aggs.length = countAggs e
      ∧ aggAliasNames (rewriteWithPureAggs PureAggRewriter.new e).1.pure_aggs =
          (List.range (countAggs e)).map (fun i => "_agg_" ++ Nat.repr i)
      ∧ (aggAliasNames (rewriteWithPureAggs PureAggRewriter.new e).1.pure_aggs).Nodup) := by
  constructor
  · intro st agg
    rfl
  · intro e
    obtain ⟨h1, _⟩ := rewriteAggs_spec e PureAggRewriter.new
    have hnew : (PureAggRewriter.new.pure_aggs : List DFExpr) = [] := rfl
    have hid : PureAggRewriter.new.next_id = 0 := rfl
    rw [h1, hnew, hid, List.nil_append]
    refine ⟨?_, ?_, ?_⟩
    · exact length_extractedAggs e 0
    · rw [aggAliasNames_extracted e 0, List.range_eq_range']
    · rw [aggAliasNames_extracted e 0]
      exact (List.nodup_range' ..).map aggName_injective

end VegaFusion
